import Mathlib

/-!
Shallow embedding of the `PythonAgent` class from `src/main.py`.

External effects (HTTP requests, subprocess execution, filesystem checks)
are modelled by oracle arguments describing the outcome of each external
call; each operation returns, besides its result string, a record of the
observable side effects it performed (fetch attempted, temp file created
and removed, subprocess spawned), so that resource-discipline claims can
be stated.  Python string primitives used by the dispatcher (`lower`,
`strip`, `startswith`, `split(" ", 1)[1]`, substring membership `in`)
are embedded as executable Lean functions over character lists; `lower`
and `strip` are faithful on the ASCII inputs the program compares
against (Python also folds some non-ASCII characters, which no claim
involves).
-/

/-- ASCII lowercasing of one character, as Python `str.lower` acts on
ASCII: characters with code 65..90 are shifted by 32, others unchanged. -/
def asciiLower (c : Char) : Char :=
  if 65 ≤ c.toNat ∧ c.toNat ≤ 90 then Char.ofNat (c.toNat + 32) else c

/-- Python `s.lower()` on a string, character by character. -/
def pyLower (s : String) : String :=
  ⟨s.toList.map asciiLower⟩

/-- Whitespace characters removed by Python `str.strip()` (the ASCII ones
plus the common Latin-1 whitespace). -/
def isPyWhitespace (c : Char) : Bool :=
  c = ' ' || c = '\t' || c = '\n' || c = '\r' || c = '\x0b' || c = '\x0c' || c = '\x85' || c = '\xa0'

/-- Python `s.strip()`: drop leading and trailing whitespace. -/
def pyStrip (s : String) : String :=
  ⟨((s.toList.dropWhile isPyWhitespace).reverse.dropWhile isPyWhitespace).reverse⟩

/-- Python `s.startswith(pat)` on character lists: the second list is a
leading segment of the first. -/
def listStartsWith : List Char → List Char → Bool
  | _, [] => true
  | [], _ :: _ => false
  | c :: cs, d :: ds => c = d && listStartsWith cs ds

/-- Occurrence of the second list as a contiguous segment of the first. -/
def listHasInfix : List Char → List Char → Bool
  | [], pat => listStartsWith [] pat
  | c :: cs, pat => listStartsWith (c :: cs) pat || listHasInfix cs pat

/-- Python substring membership `pat in s`. -/
def containsSubstr (s pat : String) : Bool :=
  listHasInfix s.toList pat.toList

/-- Everything after the first space character, if any: the content of
Python `s.split(" ", 1)[1]`, with `none` when the index would be out of
range (no space in `s`). -/
def tailAfterSpace : List Char → Option (List Char)
  | [] => none
  | c :: cs => if c = ' ' then some cs else tailAfterSpace cs

/-- Python `s.split(" ", 1)[1]` as a fallible operation on strings. -/
def splitArgTail (s : String) : Option String :=
  (tailAfterSpace s.toList).map String.mk

/-- Message roles used in the conversation history. -/
inductive Role where
  | system
  | user
  | assistant
deriving DecidableEq, Repr

/-- One entry of `conversation_history`: a dict with keys role and content. -/
structure Message where
  role : Role
  content : String
deriving DecidableEq, Repr

/-- The mutable state of a `PythonAgent` relevant to the claims: its
`conversation_history` list. -/
structure AgentState where
  conversation_history : List Message
deriving DecidableEq, Repr

/-- State built by `PythonAgent.__init__`: history holding exactly the
system message (line 25 of `src/main.py`). -/
def initAgent (system_prompt : String) : AgentState :=
  ⟨[⟨Role.system, system_prompt⟩]⟩

/-- Outcome of a `subprocess.run` call: normal completion with a return
code and captured streams, `subprocess.TimeoutExpired`, or any other
exception (carrying its message). -/
inductive ExecOutcome where
  | completed (returncode : Int) (stdout stderr : String)
  | timeoutExpired
  | exn (msg : String)
deriving DecidableEq, Repr

/-- True exactly when `subprocess.run` returned without raising. -/
def completedNormally : ExecOutcome → Bool
  | .completed _ _ _ => true
  | .timeoutExpired => false
  | .exn _ => false

/-- Result of `_execute_local_script`: the returned string and whether a
subprocess was spawned. -/
structure LocalRun where
  result : String
  spawned : Bool
deriving DecidableEq, Repr

/-- Embedding of `_execute_local_script` (lines 27..57): the oracle
`file_exists` is the outcome of the `os.path.exists` check and `run` the
outcome of `subprocess.run` when it is reached. -/
def execute_local_script (file_path : String) (file_exists : Bool) (run : ExecOutcome) : LocalRun :=
  if file_exists = false then
    { result := "Error: File \x27" ++ file_path ++ "\x27 not found.", spawned := false }
  else
    match run with
    | .completed rc out err =>
        if rc = 0 then
          { result := "--- Script Result ---\n" ++ out, spawned := true }
        else
          { result := "--- Script Error ---\n" ++ err, spawned := true }
    | .timeoutExpired =>
        { result := "Error: Script execution timed out (30 seconds limit).", spawned := true }
    | .exn m =>
        { result := "An error occurred: " ++ m, spawned := true }

/-- Outcome of the `requests.get` fetch (including `raise_for_status`):
a body, `requests.exceptions.Timeout`, or another
`requests.exceptions.RequestException` carrying its message. -/
inductive FetchOutcome where
  | ok (body : String)
  | timeout
  | requestError (msg : String)
deriving DecidableEq, Repr

/-- Result of `_execute_github_script`: the returned string plus the
trace of observable effects of the invocation. -/
structure GithubRun where
  result : String
  fetchAttempted : Bool
  tempCreated : Bool
  tempRemoved : Bool
  spawned : Bool
deriving DecidableEq, Repr

/-- Embedding of `_execute_github_script` (lines 59..108).  The URL check
is Python substring membership on the whole URL string (line 67).  The
`os.remove` on line 94 runs only when `subprocess.run` returns normally;
when it raises (timeout or other exception) control jumps to the except
blocks and the temporary file is not removed. -/
def execute_github_script (github_raw_url : String) (fetch : FetchOutcome) (run : ExecOutcome) : GithubRun :=
  if containsSubstr github_raw_url "raw.githubusercontent.com" = false then
    { result := "Error: Please use a raw GitHub URL (raw.githubusercontent.com). Regular GitHub URLs won\x27t work."
      fetchAttempted := false, tempCreated := false, tempRemoved := false, spawned := false }
  else
    match fetch with
    | .timeout =>
        { result := "Error: Request timed out. Check your internet connection."
          fetchAttempted := true, tempCreated := false, tempRemoved := false, spawned := false }
    | .requestError m =>
        { result := "Error fetching script: " ++ m
          fetchAttempted := true, tempCreated := false, tempRemoved := false, spawned := false }
    | .ok _body =>
        match run with
        | .completed rc out err =>
            { result := if rc = 0 then "--- Script Result ---\n" ++ out else "--- Script Error ---\n" ++ err
              fetchAttempted := true, tempCreated := true, tempRemoved := true, spawned := true }
        | .timeoutExpired =>
            { result := "Error: Script execution timed out (30 seconds limit)."
              fetchAttempted := true, tempCreated := true, tempRemoved := false, spawned := true }
        | .exn m =>
            { result := "An error occurred: " ++ m
              fetchAttempted := true, tempCreated := true, tempRemoved := false, spawned := true }

/-- Outcome of the chat completion call in `_get_agent_response`: a reply
whose extracted content is `text` (possibly empty), a transport timeout,
another `requests` exception, or any other exception while posting or
decoding the payload (malformed JSON, missing keys). -/
inductive ApiOutcome where
  | reply (text : String)
  | timeout
  | requestError (msg : String)
  | malformed (msg : String)
deriving DecidableEq, Repr

/-- Failure of the chat call in the sense of the spec: any outcome other
than a reply with non-empty content. -/
def apiFails : ApiOutcome → Prop
  | .reply t => t = ""
  | .timeout => True
  | .requestError _ => True
  | .malformed _ => True

/-- Embedding of `_get_agent_response` (lines 110..145): append the user
message, then either append the assistant reply and return it, or pop
the user message back off and return an error string. -/
def get_agent_response (st : AgentState) (prompt : String) (api : ApiOutcome) : AgentState × String :=
  match api with
  | .reply text =>
      if text = "" then
        (AgentState.mk (st.conversation_history ++ [Message.mk Role.user prompt]).dropLast,
         "Error: The AI\x27s response was empty.")
      else
        (AgentState.mk (st.conversation_history ++ [Message.mk Role.user prompt] ++ [Message.mk Role.assistant text]), text)
  | .timeout =>
      (AgentState.mk (st.conversation_history ++ [Message.mk Role.user prompt]).dropLast,
       "Error: Request to AI timed out. Please try again.")
  | .requestError m =>
      (AgentState.mk (st.conversation_history ++ [Message.mk Role.user prompt]).dropLast,
       "Error talking to the AI brain: " ++ m)
  | .malformed m =>
      (AgentState.mk (st.conversation_history ++ [Message.mk Role.user prompt]).dropLast,
       "Error talking to the AI brain: " ++ m)

/-- Run a sequence of chat turns in which every remote call succeeds with
the paired reply text. -/
def runTurns (st : AgentState) : List (String × String) → AgentState
  | [] => st
  | (p, r) :: rest => runTurns (get_agent_response st p (.reply r)).1 rest

/-- The messages a list of successful turns appends to the history. -/
def turnMessages : List (String × String) → List Message
  | [] => []
  | (p, r) :: rest => ⟨Role.user, p⟩ :: ⟨Role.assistant, r⟩ :: turnMessages rest

/-- Expected role pattern of `n` user and assistant pairs. -/
def altRoles : Nat → List Role
  | 0 => []
  | n + 1 => Role.user :: Role.assistant :: altRoles n

/-- Run any sequence of chat-path calls, successful or failed. -/
def runCalls (st : AgentState) : List (String × ApiOutcome) → AgentState
  | [] => st
  | (p, api) :: rest => runCalls (get_agent_response st p api).1 rest

/-- Routing decision of one iteration of the `start_chat` loop
(lines 159..181) for one input line. -/
inductive Dispatch where
  | quitSession
  | runLocal (file_path : String)
  | runGithub (url : String)
  | chat (raw : String)
  | indexError
deriving DecidableEq, Repr

/-- Embedding of the dispatch logic of `start_chat`: the quit check is on
the lowercased raw input (line 162); the command checks are on the
lowercased stripped input (lines 169 and 174); a matching command
extracts `clean_input.split(" ", 1)[1].strip()`, where a missing index
1 would raise (modelled by `Dispatch.indexError`); everything else goes
to the chat path with the raw, unstripped input (line 180). -/
def classify (user_input : String) : Dispatch :=
  if pyLower user_input = "quit" ∨ pyLower user_input = "exit" then
    .quitSession
  else if listStartsWith (pyLower (pyStrip user_input)).toList "run_local ".toList then
    match splitArgTail (pyStrip user_input) with
    | some t => .runLocal (pyStrip t)
    | none => .indexError
  else if listStartsWith (pyLower (pyStrip user_input)).toList "run_github ".toList then
    match splitArgTail (pyStrip user_input) with
    | some t => .runGithub (pyStrip t)
    | none => .indexError
  else
    .chat user_input

/-- Everything after the scheme separator of a URL. -/
def afterSchemeSep : List Char → List Char
  | [] => []
  | ':' :: '/' :: '/' :: rest => rest
  | _ :: rest => afterSchemeSep rest

/-- The segment before the first slash. -/
def untilSlash : List Char → List Char
  | [] => []
  | c :: rest => if c = '/' then [] else c :: untilSlash rest

/-- Modelled from the claim wording, not from the source: the host
component of a URL, the text between the scheme separator and the next
slash.  Used only to compare the claimed host-based trust check with the
whole-string check the source performs. -/
def specUrlHost (url : String) : String :=
  ⟨untilSlash (afterSchemeSep url.toList)⟩

/-- Unfolding of `pyLower` on character lists. -/
theorem pyLower_toList (s : String) : (pyLower s).toList = s.toList.map asciiLower :=
  rfl

/-- ASCII lowercasing maps no character other than the space to the space. -/
theorem asciiLower_eq_space {c : Char} (h : asciiLower c = ' ') : c = ' ' := by
  unfold asciiLower at h
  split at h
  · rename_i hc
    obtain ⟨h1, h2⟩ := hc
    generalize c.toNat = n at h h1 h2
    interval_cases n <;> exact absurd h (by decide)
  · exact h

/-- Every character of a leading segment occurs in the whole list. -/
theorem listStartsWith_mem {c : Char} :
    ∀ {ys pat : List Char}, listStartsWith ys pat = true → c ∈ pat → c ∈ ys := by
  intro ys pat
  induction pat generalizing ys with
  | nil => intro _ hmem; cases hmem
  | cons d ds ih =>
      intro hsw hmem
      cases ys with
      | nil => simp [listStartsWith] at hsw
      | cons y ts =>
          simp only [listStartsWith, Bool.and_eq_true, decide_eq_true_eq] at hsw
          obtain ⟨hyd, hrest⟩ := hsw
          rcases List.mem_cons.mp hmem with hcd | hcds
          · exact hcd ▸ hyd ▸ List.mem_cons_self y ts
          · exact List.mem_cons_of_mem y (ih hrest hcds)

/-- A list holding a space always has a split tail. -/
theorem tailAfterSpace_isSome :
    ∀ {l : List Char}, ' ' ∈ l → ∃ t, tailAfterSpace l = some t := by
  intro l
  induction l with
  | nil => intro h; cases h
  | cons c cs ih =>
      intro h
      by_cases hc : c = ' '
      · exact ⟨cs, by simp [tailAfterSpace, hc]⟩
      · rcases List.mem_cons.mp h with hce | hcs
        · exact absurd hce.symm hc
        · obtain ⟨t, ht⟩ := ih hcs
          exact ⟨t, by simp [tailAfterSpace, hc, ht]⟩

/-- A stripped input whose lowercasing starts with a pattern holding a
space itself holds a space, so the argument extraction succeeds. -/
theorem splitArgTail_isSome_of_startsWith {s : String} {pat : List Char}
    (hsw : listStartsWith (pyLower s).toList pat = true) (hsp : ' ' ∈ pat) :
    ∃ t, splitArgTail s = some t := by
  have hmem : ' ' ∈ (pyLower s).toList := listStartsWith_mem hsw hsp
  rw [pyLower_toList] at hmem
  obtain ⟨c, hc, hlc⟩ := List.mem_map.mp hmem
  have hcs : c = ' ' := asciiLower_eq_space hlc
  obtain ⟨t, ht⟩ := tailAfterSpace_isSome (hcs ▸ hc)
  exact ⟨String.mk t, by unfold splitArgTail; rw [ht]; rfl⟩

/-- A leading segment of a list is a leading segment of any extension. -/
theorem listStartsWith_append {ys zs pat : List Char}
    (h : listStartsWith ys pat = true) : listStartsWith (ys ++ zs) pat = true := by
  induction pat generalizing ys with
  | nil => simp [listStartsWith]
  | cons d ds ih =>
      cases ys with
      | nil => simp [listStartsWith] at h
      | cons y ts =>
          simp only [listStartsWith, Bool.and_eq_true, decide_eq_true_eq] at h
          simp only [List.cons_append, listStartsWith, Bool.and_eq_true, decide_eq_true_eq]
          exact ⟨h.1, ih h.2⟩

/-- Prepending text to a string extends leading segments through append. -/
theorem listStartsWith_string_append {s t : String} {pat : List Char}
    (h : listStartsWith s.toList pat = true) :
    listStartsWith (s ++ t).toList pat = true := by
  have : (s ++ t).toList = s.toList ++ t.toList := by
    simp [String.toList, String.data_append]
  rw [this]
  exact listStartsWith_append h

/-- Popping the just-appended element restores the original list. -/
theorem dropLast_append_singleton {α : Type} (l : List α) (a : α) :
    (l ++ [a]).dropLast = l :=
  List.dropLast_concat

/-- A sequence of successful turns appends exactly its user and assistant
messages to the history. -/
theorem runTurns_history (turns : List (String × String)) (st : AgentState)
    (h : ∀ pr ∈ turns, pr.2 ≠ "") :
    (runTurns st turns).conversation_history =
      st.conversation_history ++ turnMessages turns := by
  induction turns generalizing st with
  | nil => simp [runTurns, turnMessages]
  | cons pr rest ih =>
      obtain ⟨p, r⟩ := pr
      have hr : r ≠ "" := h (p, r) (List.mem_cons_self _ _)
      have hrest : ∀ pr ∈ rest, pr.2 ≠ "" := fun q hq => h q (List.mem_cons_of_mem _ hq)
      rw [runTurns, get_agent_response, if_neg hr, ih _ hrest]
      simp [turnMessages, List.append_assoc]

/-- Each turn contributes two messages. -/
theorem turnMessages_length (ts : List (String × String)) :
    (turnMessages ts).length = 2 * ts.length := by
  induction ts with
  | nil => simp [turnMessages]
  | cons pr rest ih =>
      obtain ⟨p, r⟩ := pr
      simp only [turnMessages, List.length_cons, ih, List.length_cons]
      omega

/-- The roles of the appended turn messages alternate user, assistant. -/
theorem turnMessages_roles (ts : List (String × String)) :
    (turnMessages ts).map Message.role = altRoles ts.length := by
  induction ts with
  | nil => simp [turnMessages, altRoles]
  | cons pr rest ih =>
      obtain ⟨p, r⟩ := pr
      simp [turnMessages, altRoles, ih]

/-- Variant of the previous lemma in cons-normalised form. -/
theorem dropLast_cons_append_singleton {α : Type} (a : α) (l : List α) (b : α) :
    (a :: (l ++ [b])).dropLast = a :: l := by
  rw [← List.cons_append, List.dropLast_concat]

/-- One chat-path call preserves the head of a nonempty history. -/
theorem get_agent_response_head (st : AgentState) (p : String) (api : ApiOutcome)
    (m : Message) (h : st.conversation_history.head? = some m) :
    (get_agent_response st p api).1.conversation_history.head? = some m := by
  cases hst : st.conversation_history with
  | nil => rw [hst] at h; cases h
  | cons a l =>
      rw [hst] at h
      cases api with
      | reply t =>
          by_cases ht : t = ""
          · simp [get_agent_response, ht, hst, dropLast_cons_append_singleton, h]
          · simpa [get_agent_response, ht, hst] using h
      | timeout => simp [get_agent_response, hst, dropLast_cons_append_singleton, h]
      | requestError msg => simp [get_agent_response, hst, dropLast_cons_append_singleton, h]
      | malformed msg => simp [get_agent_response, hst, dropLast_cons_append_singleton, h]

/-- Any sequence of chat-path calls preserves the head of the history. -/
theorem runCalls_head (calls : List (String × ApiOutcome)) (st : AgentState)
    (m : Message) (h : st.conversation_history.head? = some m) :
    (runCalls st calls).conversation_history.head? = some m := by
  induction calls generalizing st with
  | nil => simpa [runCalls] using h
  | cons c rest ih =>
      obtain ⟨p, api⟩ := c
      exact ih _ (get_agent_response_head st p api m h)

/-- Termination test of the loop, on the raw lowercased input only. -/
theorem classify_quit_iff (v : String) :
    classify v = Dispatch.quitSession ↔ (pyLower v = "quit" ∨ pyLower v = "exit") := by
  unfold classify
  by_cases hv : pyLower v = "quit" ∨ pyLower v = "exit"
  · simp [hv]
  · rw [if_neg hv]
    simp only [hv, iff_false]
    split
    · split <;> simp
    · split
      · split <;> simp
      · simp

/-- Claim C1: the specification states that the temporary file written by
the remote script runner is removed on every outcome, including an
execution timeout.  At the concrete failing input below (a trusted URL
whose fetched script sleeps past the 30 second limit, so that
subprocess.run raises TimeoutExpired) the code creates the temporary
file, control jumps past the removal on line 94 into the except block,
and the invocation returns the timeout message with the temporary file
still on disk: the claimed removal does not happen. -/
theorem c1_temp_file_left_behind_on_timeout :
    (execute_github_script "https://raw.githubusercontent.com/u/r/main/s.py"
        (.ok "import time\ntime.sleep(60)") .timeoutExpired).tempCreated = true ∧
    (execute_github_script "https://raw.githubusercontent.com/u/r/main/s.py"
        (.ok "import time\ntime.sleep(60)") .timeoutExpired).tempRemoved = false ∧
    (execute_github_script "https://raw.githubusercontent.com/u/r/main/s.py"
        (.ok "import time\ntime.sleep(60)") .timeoutExpired).result =
      "Error: Script execution timed out (30 seconds limit)." := by
  decide

/-- Claim C2: every failing chat-path call (timeout, request error,
malformed payload, or a successful response with empty reply text)
leaves the conversation history exactly as it was before the call and
returns a string beginning with the word Error instead of raising. -/
theorem c2_failed_call_rolls_back (st : AgentState) (prompt : String) (api : ApiOutcome)
    (h : apiFails api) :
    (get_agent_response st prompt api).1.conversation_history = st.conversation_history ∧
    listStartsWith (get_agent_response st prompt api).2.toList "Error".toList = true := by
  cases api with
  | reply t =>
      have ht : t = "" := h
      subst ht
      refine ⟨?_, ?_⟩
      · simp [get_agent_response, List.dropLast_concat]
      · show listStartsWith ("Error: The AI\x27s response was empty." : String).toList
          "Error".toList = true
        decide
  | timeout =>
      refine ⟨?_, ?_⟩
      · simp [get_agent_response, List.dropLast_concat]
      · show listStartsWith ("Error: Request to AI timed out. Please try again." : String).toList
          "Error".toList = true
        decide
  | requestError m =>
      refine ⟨?_, ?_⟩
      · simp [get_agent_response, List.dropLast_concat]
      · show listStartsWith (("Error talking to the AI brain: " ++ m) : String).toList
          "Error".toList = true
        exact listStartsWith_string_append (by decide)
  | malformed m =>
      refine ⟨?_, ?_⟩
      · simp [get_agent_response, List.dropLast_concat]
      · show listStartsWith (("Error talking to the AI brain: " ++ m) : String).toList
          "Error".toList = true
        exact listStartsWith_string_append (by decide)

/-- Witness for claim C2 at a concrete failing call: a timeout after one
system message leaves the history unchanged and yields an error string. -/
theorem c2_failed_call_rolls_back_witness :
    apiFails ApiOutcome.timeout ∧
    ((get_agent_response (initAgent "sys") "hello" ApiOutcome.timeout).1.conversation_history =
        (initAgent "sys").conversation_history ∧
      listStartsWith (get_agent_response (initAgent "sys") "hello" ApiOutcome.timeout).2.toList
        "Error".toList = true) :=
  ⟨trivial, c2_failed_call_rolls_back (initAgent "sys") "hello" ApiOutcome.timeout trivial⟩

/-- Counterexample to claim C3 as stated: a URL whose host component does
not contain the trusted substring, yet the runner attempts the fetch,
because the source checks the whole URL string and the substring sits in
the path. -/
theorem c3_host_check_counterexample :
    containsSubstr (specUrlHost "https://evil.example.com/raw.githubusercontent.com/x.py")
      "raw.githubusercontent.com" = false ∧
    (execute_github_script "https://evil.example.com/raw.githubusercontent.com/x.py"
      (.ok "print(1)") (.completed 0 "1\n" "")).fetchAttempted = true := by
  decide

/-- Claim C3 amended: the guidance message and the no-fetch guarantee are
governed by substring membership over the whole URL string, not over its
host component: a fetch is attempted exactly when the URL string
contains the trusted substring anywhere, and otherwise the fixed
guidance message is returned with no fetch. -/
theorem c3_trust_gate_is_whole_url (url : String) (fetch : FetchOutcome) (run : ExecOutcome) :
    ((execute_github_script url fetch run).fetchAttempted = true ↔
      containsSubstr url "raw.githubusercontent.com" = true) ∧
    (containsSubstr url "raw.githubusercontent.com" = false →
      (execute_github_script url fetch run).result =
        "Error: Please use a raw GitHub URL (raw.githubusercontent.com). Regular GitHub URLs won\x27t work.") := by
  by_cases h : containsSubstr url "raw.githubusercontent.com" = false
  · refine ⟨?_, fun _ => ?_⟩
    · unfold execute_github_script
      rw [if_pos h]
      simp [h]
    · unfold execute_github_script
      rw [if_pos h]
  · have hx : containsSubstr url "raw.githubusercontent.com" = true := by
      revert h; cases containsSubstr url "raw.githubusercontent.com" <;> simp
    refine ⟨?_, fun hf => absurd hx (by simp [hf])⟩
    unfold execute_github_script
    rw [if_neg h]
    cases fetch with
    | ok body => cases run <;> simp [hx]
    | timeout => simp [hx]
    | requestError m => simp [hx]

/-- Witness for the amended claim C3 at a concrete rejected URL. -/
theorem c3_trust_gate_is_whole_url_witness :
    containsSubstr "https://example.com/a.py" "raw.githubusercontent.com" = false ∧
    (execute_github_script "https://example.com/a.py" FetchOutcome.timeout
        (.completed 0 "" "")).result =
      "Error: Please use a raw GitHub URL (raw.githubusercontent.com). Regular GitHub URLs won\x27t work." :=
  ⟨by decide,
    (c3_trust_gate_is_whole_url "https://example.com/a.py" FetchOutcome.timeout
      (.completed 0 "" "")).2 (by decide)⟩

/-- Counterexample to claim C4 as stated: an input line consisting of a
command verb followed only by a space is stripped to the bare verb, no
longer matches the command check, and is silently routed to the chat
path; no usage error is reported. -/
theorem c4_bare_command_counterexample :
    classify "run_local " = Dispatch.chat "run_local " ∧
    classify "run_github " = Dispatch.chat "run_github " := by
  decide

/-- Claim C4 amended: the argument-extraction index operation indeed
never fails, but not because of a guard reporting a usage error: an
input whose stripped form is a bare command verb fails the space-ended
command check after stripping and is routed to the chat path, while any
input that does take a command branch necessarily holds a space, so the
extraction always finds its index. -/
theorem c4_extraction_never_fails_bare_verb_chats (u : String) :
    classify u ≠ Dispatch.indexError ∧
    (pyLower u ≠ "quit" → pyLower u ≠ "exit" →
      (pyLower (pyStrip u) = "run_local" ∨ pyLower (pyStrip u) = "run_github") →
      classify u = Dispatch.chat u) := by
  constructor
  · unfold classify
    by_cases hq : pyLower u = "quit" ∨ pyLower u = "exit"
    · simp [hq]
    · rw [if_neg hq]
      by_cases hl : listStartsWith (pyLower (pyStrip u)).toList "run_local ".toList = true
      · rw [if_pos hl]
        obtain ⟨t, ht⟩ := splitArgTail_isSome_of_startsWith hl (by decide)
        rw [ht]
        simp
      · rw [if_neg hl]
        by_cases hg : listStartsWith (pyLower (pyStrip u)).toList "run_github ".toList = true
        · rw [if_pos hg]
          obtain ⟨t, ht⟩ := splitArgTail_isSome_of_startsWith hg (by decide)
          rw [ht]
          simp
        · rw [if_neg hg]
          simp
  · intro h1 h2 h3
    unfold classify
    rw [if_neg (by tauto)]
    rcases h3 with h | h
    · rw [if_neg (by rw [h]; decide), if_neg (by rw [h]; decide)]
    · rw [if_neg (by rw [h]; decide), if_neg (by rw [h]; decide)]

/-- Witness for the amended claim C4 at the concrete bare-verb input. -/
theorem c4_extraction_never_fails_bare_verb_chats_witness :
    pyLower (pyStrip "run_local ") = "run_local" ∧
    classify "run_local " ≠ Dispatch.indexError ∧
    classify "run_local " = Dispatch.chat "run_local " :=
  ⟨by decide, (c4_extraction_never_fails_bare_verb_chats "run_local ").1,
    (c4_extraction_never_fails_bare_verb_chats "run_local ").2 (by decide) (by decide)
      (Or.inl (by decide))⟩

/-- Claim C5: starting from a fresh agent, any sequence of N successful
chat turns (each reply non-empty) leaves a history of length 1 + 2N
whose roles are the system message followed by alternating user and
assistant pairs. -/
theorem c5_successful_turns_shape (sp : String) (turns : List (String × String))
    (h : ∀ pr ∈ turns, pr.2 ≠ "") :
    (runTurns (initAgent sp) turns).conversation_history.length = 1 + 2 * turns.length ∧
    (runTurns (initAgent sp) turns).conversation_history.map Message.role =
      Role.system :: altRoles turns.length := by
  rw [runTurns_history turns _ h]
  constructor
  · simp only [initAgent, List.length_append, List.length_cons, List.length_nil,
      turnMessages_length]
  · simp [initAgent, turnMessages_roles]

/-- Witness for claim C5 at two concrete successful turns. -/
theorem c5_successful_turns_shape_witness :
    (∀ pr ∈ ([("hi", "there"), ("more", "words")] : List (String × String)), pr.2 ≠ "") ∧
    ((runTurns (initAgent "sys") [("hi", "there"), ("more", "words")]).conversation_history.length =
        1 + 2 * ([("hi", "there"), ("more", "words")] : List (String × String)).length ∧
      (runTurns (initAgent "sys")
            [("hi", "there"), ("more", "words")]).conversation_history.map Message.role =
        Role.system :: altRoles ([("hi", "there"), ("more", "words")] : List (String × String)).length) :=
  ⟨by decide, c5_successful_turns_shape "sys" [("hi", "there"), ("more", "words")] (by decide)⟩

/-- Claim C6: after construction and any sequence of chat-path calls,
successful or failed, the first element of the conversation history is
still the fixed system message set at construction. -/
theorem c6_system_message_stays_first (sp : String) (calls : List (String × ApiOutcome)) :
    (runCalls (initAgent sp) calls).conversation_history.head? =
      some (Message.mk Role.system sp) :=
  runCalls_head calls (initAgent sp) (Message.mk Role.system sp) rfl

/-- Claim C7: for a path that does not reference an existing file, the
local script runner returns the not-found message and spawns no
subprocess. -/
theorem c7_missing_file_spawns_nothing (file_path : String) (run : ExecOutcome) :
    execute_local_script file_path false run =
      { result := "Error: File \x27" ++ file_path ++ "\x27 not found.", spawned := false } := by
  unfold execute_local_script
  rw [if_pos rfl]

/-- Claim C8: a script execution, local or remote, that completes within
the timeout returns the captured stdout under the Script Result label
when the exit code is 0 and the captured stderr under the Script Error
label otherwise. -/
theorem c8_exit_code_selects_stream (file_path url body out err : String) (rc : Int)
    (h : containsSubstr url "raw.githubusercontent.com" = true) :
    ((execute_local_script file_path true (.completed rc out err)).result =
        if rc = 0 then "--- Script Result ---\n" ++ out else "--- Script Error ---\n" ++ err) ∧
    ((execute_github_script url (.ok body) (.completed rc out err)).result =
        if rc = 0 then "--- Script Result ---\n" ++ out else "--- Script Error ---\n" ++ err) := by
  constructor
  · unfold execute_local_script
    rw [if_neg (by simp)]
    by_cases hrc : rc = 0 <;> simp [hrc]
  · unfold execute_github_script
    rw [if_neg (by simp [h])]

/-- Witness for claim C8 at a concrete zero-exit run of both runners. -/
theorem c8_exit_code_selects_stream_witness :
    containsSubstr "https://raw.githubusercontent.com/u/r/m/s.py" "raw.githubusercontent.com" = true ∧
    (((execute_local_script "demo.py" true (.completed 0 "hello\n" "")).result =
        if (0 : Int) = 0 then "--- Script Result ---\n" ++ "hello\n" else "--- Script Error ---\n" ++ "") ∧
      ((execute_github_script "https://raw.githubusercontent.com/u/r/m/s.py" (.ok "print")
          (.completed 0 "hello\n" "")).result =
        if (0 : Int) = 0 then "--- Script Result ---\n" ++ "hello\n" else "--- Script Error ---\n" ++ "")) :=
  ⟨by decide,
    c8_exit_code_selects_stream "demo.py" "https://raw.githubusercontent.com/u/r/m/s.py"
      "print" "hello\n" "" 0 (by decide)⟩

/-- Claim C9: the trust check is substring membership over the full URL
string, so any URL containing the trusted substring anywhere, in
whatever component, passes the gate: the fetch is attempted, and when
the fetch succeeds the downloaded script is executed. -/
theorem c9_substring_anywhere_in_url_fetches (url body : String) (run : ExecOutcome)
    (h : containsSubstr url "raw.githubusercontent.com" = true) :
    (execute_github_script url (.ok body) run).fetchAttempted = true ∧
    (execute_github_script url (.ok body) run).spawned = true := by
  unfold execute_github_script
  rw [if_neg (by simp [h])]
  cases run <;> exact ⟨rfl, rfl⟩

/-- Witness for claim C9 at a URL on a different host carrying the
trusted substring only in its path. -/
theorem c9_substring_anywhere_in_url_fetches_witness :
    containsSubstr "https://evil.example.org/raw.githubusercontent.com/a.py"
      "raw.githubusercontent.com" = true ∧
    ((execute_github_script "https://evil.example.org/raw.githubusercontent.com/a.py"
        (.ok "print(2)") (.completed 1 "" "boom")).fetchAttempted = true ∧
      (execute_github_script "https://evil.example.org/raw.githubusercontent.com/a.py"
        (.ok "print(2)") (.completed 1 "" "boom")).spawned = true) :=
  ⟨by decide,
    c9_substring_anywhere_in_url_fetches "https://evil.example.org/raw.githubusercontent.com/a.py"
      "print(2)" (.completed 1 "" "boom") (by decide)⟩

/-- Claim C10: the quit and exit test lowercases the raw input line and
compares for exact equality before any trimming, so an input equal to a
termination word only after stripping does not terminate the loop and
is routed to the chat path, while a raw lowercased match always
terminates the session. -/
theorem c10_quit_check_on_raw_input (u : String)
    (h1 : pyLower u ≠ "quit") (h2 : pyLower u ≠ "exit")
    (h3 : pyLower (pyStrip u) = "quit" ∨ pyLower (pyStrip u) = "exit") :
    classify u = Dispatch.chat u ∧
    ∀ v : String, (pyLower v = "quit" ∨ pyLower v = "exit") →
      classify v = Dispatch.quitSession := by
  constructor
  · unfold classify
    rw [if_neg (by tauto)]
    rcases h3 with h | h
    · rw [if_neg (by rw [h]; decide), if_neg (by rw [h]; decide)]
    · rw [if_neg (by rw [h]; decide), if_neg (by rw [h]; decide)]
  · intro v hv
    exact (classify_quit_iff v).mpr hv

/-- Witness for claim C10 at the concrete inputs quit-with-a-space and
uppercase QUIT. -/
theorem c10_quit_check_on_raw_input_witness :
    pyLower " quit" ≠ "quit" ∧ pyLower (pyStrip " quit") = "quit" ∧
    classify " quit" = Dispatch.chat " quit" ∧ classify "QUIT" = Dispatch.quitSession := by
  refine ⟨by decide, by decide, ?_, ?_⟩
  · exact (c10_quit_check_on_raw_input " quit" (by decide) (by decide) (Or.inl (by decide))).1
  · exact (c10_quit_check_on_raw_input " quit" (by decide) (by decide)
      (Or.inl (by decide))).2 "QUIT" (Or.inl (by decide))
